import Mathlib

/-
  Verification of the `github_key` module
  (src/lib/ansible/modules/extras/source_control/github_key.py).

  The module reconciles the SSH keys registered on a user account of a
  source-control hosting service against a desired declarative state.
  This file gives a shallow embedding of its data model and operations:
  the remote key store is a list of key records, network effects are
  threaded explicitly as a session state carrying the store and the log
  of issued HTTP calls, and the fallible paths return `Except`.
-/

namespace GithubKey

/-- A key record as returned by the hosting service
(fields of the JSON objects handled by the module). -/
structure RemoteKey where
  id : Nat
  title : String
  key : String
  url : String
  created_at : String
  read_only : Bool
  verified : Bool
deriving Repr, DecidableEq

/-- A UTC timestamp, standing for `datetime.utcnow()`. -/
structure UTCTime where
  year : Nat
  month : Nat
  day : Nat
  hour : Nat
  minute : Nat
  second : Nat
deriving Repr, DecidableEq

/-- Zero-pad a number to two digits, as `strftime` does for
the fields `%m %d %H %M %S`. -/
def pad2 (n : Nat) : String :=
  if n < 10 then "0" ++ toString n else toString n

/-- Zero-pad a number to four digits, as `strftime` does for `%Y`. -/
def pad4 (n : Nat) : String :=
  if n < 10 then "000" ++ toString n
  else if n < 100 then "00" ++ toString n
  else if n < 1000 then "0" ++ toString n
  else toString n

/-- `datetime.strftime(now, "%Y-%m-%dT%H:%M:%SZ")` from `create_key`. -/
def strftimeGH (t : UTCTime) : String :=
  pad4 t.year ++ "-" ++ pad2 t.month ++ "-" ++ pad2 t.day ++ "T" ++
    pad2 t.hour ++ ":" ++ pad2 t.minute ++ ":" ++ pad2 t.second ++ "Z"

/-- One HTTP call issued through `GitHubSession.request`, as observable
network effect: method, URL, and for POST the title and key of the body. -/
inductive NetCall where
  | get (url : String)
  | post (url : String) (title : String) (key : String)
  | delete (url : String) (id : Nat)
deriving Repr, DecidableEq

/-- `API_BASE + "/user/keys"`. -/
def keysUrl : String := "https://api.github.com/user/keys"

/-- `API_BASE + "/user/keys/{id}"` built by `delete_keys` for one key. -/
def deleteUrl (id : Nat) : String := keysUrl ++ "/" ++ toString id

/-- The durable remote state: the key store of the hosting service and
the next identifier the service will assign. -/
structure Remote where
  keys : List RemoteKey
  nextId : Nat
deriving Repr, DecidableEq

/-- The session as the module sees it: the remote state reachable through
the transport, plus the log of HTTP calls issued so far. -/
structure SessionState where
  remote : Remote
  calls : List NetCall
deriving Repr, DecidableEq

/-- Modelled from the spec: `POST /user/keys` with body
`(title, key)` makes the service create a key record with a fresh
server-assigned identifier, the given title and key material, a creation
timestamp and a canonical URL, and return that record. -/
def mkServerKey (name pubkey : String) (now : UTCTime) (id : Nat) : RemoteKey :=
  { id := id, title := name, key := pubkey,
    url := keysUrl ++ "/" ++ toString id,
    created_at := strftimeGH now, read_only := false, verified := false }

/-- Modelled from the spec: `DELETE /user/keys/{id}` removes the key with
that identifier from the store. -/
def serverDelete (id : Nat) (r : Remote) : Remote :=
  { keys := r.keys.filter (fun k => decide (¬ k.id = id)), nextId := r.nextId }

/-- The listing step of the reconcilers: `get_all_keys(session)` consumed
into a list.  A successful listing returns the whole store and issues a
GET to the keys endpoint (the listing crosses the wire as one page here;
the paginated lister itself is embedded below as `get_all_keys`). -/
def listAllKeys (s : SessionState) : List RemoteKey × SessionState :=
  (s.remote.keys, { s with calls := s.calls ++ [NetCall.get keysUrl] })

/-- `create_key(session, name, pubkey, check_mode)`: in check mode a
synthetic record is fabricated (id 0, placeholder URL, current UTC time)
and nothing crosses the wire; otherwise a POST creates the key remotely. -/
def create_key (name pubkey : String) (check_mode : Bool) (now : UTCTime)
    (s : SessionState) : RemoteKey × SessionState :=
  if check_mode then
    ({ id := 0, title := name, key := pubkey,
       url := "http://example.com/CHECK_MODE_GITHUB_KEY",
       created_at := strftimeGH now, read_only := false, verified := false }, s)
  else
    (mkServerKey name pubkey now s.remote.nextId,
     { remote := { keys := s.remote.keys ++ [mkServerKey name pubkey now s.remote.nextId],
                   nextId := s.remote.nextId + 1 },
       calls := s.calls ++ [NetCall.post keysUrl name pubkey] })

/-- `delete_keys(session, to_delete, check_mode)`: in check mode it
returns at once; otherwise one DELETE per key, by identifier. -/
def delete_keys (to_delete : List RemoteKey) (check_mode : Bool)
    (s : SessionState) : SessionState :=
  if check_mode then s
  else
    to_delete.foldl
      (fun st k =>
        { remote := serverDelete k.id st.remote,
          calls := st.calls ++ [NetCall.delete (deleteUrl k.id) k.id] })
      s

/-- Outcome dictionary of `ensure_key_present`. -/
structure PresentOutcome where
  changed : Bool
  deleted_keys : List RemoteKey
  matching_keys : List RemoteKey
  key : RemoteKey
deriving Repr, DecidableEq

/-- Outcome dictionary of `ensure_key_absent`. -/
structure AbsentOutcome where
  changed : Bool
  deleted_keys : List RemoteKey
deriving Repr, DecidableEq

/-- `ensure_key_present(session, name, pubkey, force, check_mode)`. -/
def ensure_key_present (name pubkey : String) (force check_mode : Bool)
    (now : UTCTime) (s0 : SessionState) : PresentOutcome × SessionState :=
  let s1 := (listAllKeys s0).2
  let matching_keys := (listAllKeys s0).1.filter (fun k => decide (k.title = name))
  let fire : Bool :=
    match matching_keys with
    | [] => false
    | k :: _ => force && decide (¬ k.key = pubkey)
  let s2 := if fire then delete_keys matching_keys check_mode s1 else s1
  let deleted_keys : List RemoteKey := if fire then matching_keys else []
  let remaining : List RemoteKey := if fire then [] else matching_keys
  match remaining with
  | [] =>
    ({ changed := true, deleted_keys := deleted_keys, matching_keys := [],
       key := (create_key name pubkey check_mode now s2).1 },
     (create_key name pubkey check_mode now s2).2)
  | k :: rest =>
    ({ changed := !deleted_keys.isEmpty, deleted_keys := deleted_keys,
       matching_keys := k :: rest, key := k }, s2)

/-- `ensure_key_absent(session, name, check_mode)`. -/
def ensure_key_absent (name : String) (check_mode : Bool)
    (s0 : SessionState) : AbsentOutcome × SessionState :=
  let s1 := (listAllKeys s0).2
  let to_delete := (listAllKeys s0).1.filter (fun k => decide (k.title = name))
  let s2 := delete_keys to_delete check_mode s1
  ({ changed := !to_delete.isEmpty, deleted_keys := to_delete }, s2)

/-- Run `ensure_key_present` against a remote store with an empty call log. -/
def runPresent (name pubkey : String) (force check_mode : Bool)
    (now : UTCTime) (r : Remote) : PresentOutcome × SessionState :=
  ensure_key_present name pubkey force check_mode now { remote := r, calls := [] }

/-- Run `ensure_key_absent` against a remote store with an empty call log. -/
def runAbsent (name : String) (check_mode : Bool) (r : Remote) :
    AbsentOutcome × SessionState :=
  ensure_key_absent name check_mode { remote := r, calls := [] }

/-- One HTTP response of the paginated listing: the JSON array of keys in
the body and the response headers (`info`) of `fetch_url`. -/
structure PageResponse where
  keys : List RemoteKey
  info : List (String × String)
deriving Repr, DecidableEq

/-- How a listing can fail: a Python `AttributeError` escaping
`GitHubResponse.links`, or `module.fail_json` on a failed request. -/
inductive ListErr where
  | attributeError
  | transportError (url : String)
deriving Repr, DecidableEq

/-- `GitHubResponse.links(self)`.  The guard tests `self.info` for a
`link` header, but the body then reads `re.info["link"]` - `re` is the
regular-expression module, which has no attribute `info` - so whenever a
`link` header is present the method raises `AttributeError`.  The regex
parse of the header and the loop filling the relation table are dead
code; without a `link` header the method returns the empty table. -/
def links (info : List (String × String)) :
    Except ListErr (List (String × String)) :=
  if (info.map Prod.fst).contains "link" then Except.error ListErr.attributeError
  else Except.ok []

/-- `links().get(rel)` on the relation table. -/
def lookupRel (rel : String) (ls : List (String × String)) : Option String :=
  (ls.find? (fun e => e.fst == rel)).map Prod.snd

/-- `get_all_keys(session)` consumed into a list: starting from the keys
endpoint, fetch a page, yield its keys, and continue with the URL of the
`next` relation while one exists.  The server is a map from URL to
response; `fuel` bounds the number of page fetches of the while loop. -/
def get_all_keys (server : String → Option PageResponse) :
    Nat → String → Except ListErr (List RemoteKey)
  | 0, _ => Except.ok []
  | Nat.succ fuel, url =>
    match server url with
    | none => Except.error (ListErr.transportError url)
    | some r =>
      match links r.info with
      | Except.error e => Except.error e
      | Except.ok ls =>
        match lookupRel "next" ls with
        | none => Except.ok r.keys
        | some nextUrl =>
          match get_all_keys server fuel nextUrl with
          | Except.error e => Except.error e
          | Except.ok rest => Except.ok (r.keys ++ rest)

/-- The `state` module parameter; `AnsibleModule` rejects anything outside
the declared choices `present` and `absent`. -/
inductive KeyState where
  | present
  | absent
deriving Repr, DecidableEq

/-- Python `p.split(sep)` for a single separator character, on the
character list of the string: every occurrence of the separator starts a
new (possibly empty) token. -/
def splitOnChar (sep : Char) : List Char → List (List Char)
  | [] => [[]]
  | c :: rest =>
    match splitOnChar sep rest with
    | [] => [[]]
    | t :: ts => if c = sep then [] :: t :: ts else (c :: t) :: ts

/-- Joining a token list with a single separator character, the inverse
direction of `splitOnChar`. -/
def joinChar (sep : Char) : List (List Char) → List Char
  | [] => []
  | [t] => t
  | t :: ts => t ++ sep :: joinChar sep ts

/-- `" ".join(parts)` on strings. -/
def joinSpace : List String → String
  | [] => ""
  | [s] => s
  | s :: ss => s ++ " " ++ joinSpace ss

/-- `pubkey.split(" ")` from `main`: the space-separated parts of the raw
public key string. -/
def pubkeyParts (p : String) : List String :=
  (splitOnChar ' ' p.toList).map (fun cs => String.mk cs)

/-- The error message of `fail_json` for a malformed public key. -/
def invalidFormatMsg : String := "\"pubkey\" parameter has an invalid format"

/-- The error message of `fail_json` for a missing public key. -/
def missingPubkeyMsg : String := "\"pubkey\" is required when state=present"

/-- The pubkey validation and normalization block of `main`: split on the
space character, fail when fewer than two parts result, otherwise keep
the first two parts rejoined by a space (comment stripped). -/
def normalizePubkey (p : String) : Except String String :=
  if (pubkeyParts p).length < 2 then Except.error invalidFormatMsg
  else Except.ok (joinSpace ((pubkeyParts p).take 2))

/-- The dispatch at the end of `main`: run the reconciler selected by
`state` on a fresh session. -/
def mainDispatch (name pubkey : String) (state : KeyState)
    (force check_mode : Bool) (now : UTCTime) (s0 : SessionState) :
    Except String (PresentOutcome ⊕ AbsentOutcome) × SessionState :=
  match state with
  | KeyState.present =>
    let res := ensure_key_present name pubkey force check_mode now s0
    (Except.ok (Sum.inl res.1), res.2)
  | KeyState.absent =>
    let res := ensure_key_absent name check_mode s0
    (Except.ok (Sum.inr res.1), res.2)

/-- `main()` after parameter parsing: validate and normalize the pubkey,
then reconcile.  The result pairs the exit value (an error message for
`fail_json`, or the result dictionary) with the final session state,
whose call log records every HTTP call issued. -/
def github_key_main (name : String) (pubkey : Option String)
    (state : KeyState) (force check_mode : Bool) (now : UTCTime)
    (r : Remote) : Except String (PresentOutcome ⊕ AbsentOutcome) × SessionState :=
  let s0 : SessionState := { remote := r, calls := [] }
  match pubkey with
  | some p =>
    if p = "" then
      match state with
      | KeyState.present => (Except.error missingPubkeyMsg, s0)
      | KeyState.absent => mainDispatch name "" state force check_mode now s0
    else
      match normalizePubkey p with
      | Except.error e => (Except.error e, s0)
      | Except.ok pk => mainDispatch name pk state force check_mode now s0
  | none =>
    match state with
    | KeyState.present => (Except.error missingPubkeyMsg, s0)
    | KeyState.absent => mainDispatch name "" state force check_mode now s0

/-- Python `c.isspace()` restricted to the characters it shares with
`Char.isWhitespace`; used by the whitespace reading of the spec. -/
def isWsChar (c : Char) : Bool := c.isWhitespace

/-- Whitespace tokenization on the character list: whitespace characters
separate tokens and empty tokens are dropped, as in Python `p.split()`. -/
def splitWsChar : List Char → List (List Char)
  | [] => [[]]
  | c :: rest =>
    match splitWsChar rest with
    | [] => [[]]
    | t :: ts => if isWsChar c then [] :: t :: ts else (c :: t) :: ts

/-- Modelled from the spec: the whitespace tokens of the raw public key
string, for the reading "split on whitespace" of the normalization step
(empty tokens dropped, so any whitespace separates tokens). -/
def pubkeyTokensSpec (p : String) : List String :=
  ((splitWsChar p.toList).filter (fun t => !t.isEmpty)).map (fun cs => String.mk cs)

/-- Modelled from the spec: normalization as the spec words it - split
the raw string on whitespace, fail when fewer than two tokens result,
otherwise keep the first two tokens (protocol and key data). -/
def normalizePubkeySpec (p : String) : Except String String :=
  if (pubkeyTokensSpec p).length < 2 then Except.error invalidFormatMsg
  else Except.ok (joinSpace ((pubkeyTokensSpec p).take 2))

/-- A fixed timestamp used by the concrete evaluations below. -/
def t0 : UTCTime := { year := 2016, month := 5, day := 17,
                      hour := 12, minute := 30, second := 5 }

/-- The URL of the second page in the pagination scenario. -/
def c1Page2Url : String := "https://api.github.com/user/keys?page=2"

/-- First key of the pagination scenario. -/
def c1Key1 : RemoteKey :=
  { id := 1, title := "k1", key := "ssh-rsa AAA1", url := "u1",
    created_at := "2016-01-01T00:00:00Z", read_only := false, verified := false }

/-- Second key of the pagination scenario. -/
def c1Key2 : RemoteKey :=
  { id := 2, title := "k2", key := "ssh-rsa AAA2", url := "u2",
    created_at := "2016-01-01T00:00:00Z", read_only := false, verified := false }

/-- A server holding a listing split across two pages: the first response
carries a `link` header with a `rel="next"` entry pointing at the second
page, whose response has no `link` header. -/
def c1Server (url : String) : Option PageResponse :=
  if url = keysUrl then
    some { keys := [c1Key1],
           info := [("link", "<https://api.github.com/user/keys?page=2>; rel=\"next\"")] }
  else if url = c1Page2Url then
    some { keys := [c1Key2], info := [] }
  else none

/-- A store already holding the requested key, for the idempotence
counterexample. -/
def c3Remote : Remote :=
  { keys := [{ id := 7, title := "deploy-key", key := "ssh-rsa AAA",
               url := "u7", created_at := "2016-01-01T00:00:00Z",
               read_only := false, verified := false }],
    nextId := 8 }

/-- First of two keys sharing a title, for the match-set counterexample. -/
def c9KeyA : RemoteKey :=
  { id := 1, title := "dup", key := "ssh-rsa AAA", url := "uA",
    created_at := "2016-01-01T00:00:00Z", read_only := false, verified := false }

/-- Second of two keys sharing a title. -/
def c9KeyB : RemoteKey :=
  { id := 2, title := "dup", key := "ssh-rsa BBB", url := "uB",
    created_at := "2016-01-01T00:00:00Z", read_only := false, verified := false }

/-- A store with two keys sharing the target title, the first of which
already carries the requested material. -/
def c9Remote : Remote := { keys := [c9KeyA, c9KeyB], nextId := 3 }

/-- A store with a single key whose material differs from the requested
one, used by several witnesses. -/
def demoRemote : Remote :=
  { keys := [{ id := 4, title := "deploy-key", key := "ssh-rsa OLD",
               url := "u4", created_at := "2016-01-01T00:00:00Z",
               read_only := false, verified := false }],
    nextId := 5 }

/-- An empty store. -/
def emptyRemote : Remote := { keys := [], nextId := 1 }

/-- Characterization of a real (non-check) `delete_keys` run: every key
whose identifier occurs among the given keys is removed from the store,
and one DELETE call per given key is appended to the log, in order. -/
theorem delete_keys_false_eq (l : List RemoteKey) (s : SessionState) :
    delete_keys l false s =
      { remote := { keys := s.remote.keys.filter
                      (fun k => decide (¬ k.id ∈ l.map RemoteKey.id)),
                    nextId := s.remote.nextId },
        calls := s.calls ++ l.map (fun k => NetCall.delete (deleteUrl k.id) k.id) } := by
  induction l generalizing s with
  | nil =>
    simp [delete_keys]
  | cons d tl ih =>
    have step : delete_keys (d :: tl) false s
        = delete_keys tl false
            { remote := serverDelete d.id s.remote,
              calls := s.calls ++ [NetCall.delete (deleteUrl d.id) d.id] } := rfl
    rw [step, ih]
    refine congrArg₂ SessionState.mk ?_ ?_
    · simp only [serverDelete, List.filter_filter]
      refine congrArg₂ Remote.mk ?_ rfl
      refine congrArg₂ List.filter ?_ rfl
      funext k
      by_cases h1 : k.id = d.id <;> by_cases h2 : k.id ∈ tl.map RemoteKey.id <;>
        simp [h1, h2]
    · simp

/-- After removing the identifiers of the whole match set of a title from
a store, no key with that title remains. -/
theorem filter_title_sub (name : String) (keys M : List RemoteKey)
    (hm : keys.filter (fun k => decide (k.title = name)) = M) :
    (keys.filter (fun k => decide (¬ k.id ∈ M.map RemoteKey.id))).filter
        (fun k => decide (k.title = name)) = [] := by
  subst hm
  rw [List.filter_filter, List.filter_eq_nil_iff]
  intro k hk hcontra
  simp only [Bool.and_eq_true, decide_eq_true_eq] at hcontra
  exact hcontra.2 (List.mem_map.mpr
    ⟨k, List.mem_filter.mpr ⟨hk, by simp [hcontra.1]⟩, rfl⟩)

/-- `ensure_key_present` when no key bears the target title: only the
create step runs, on the session that issued the listing GET. -/
theorem ensure_present_no_match (name pubkey : String) (force check : Bool)
    (now : UTCTime) (s0 : SessionState)
    (hm : s0.remote.keys.filter (fun k => decide (k.title = name)) = []) :
    ensure_key_present name pubkey force check now s0 =
      ({ changed := true, deleted_keys := [], matching_keys := [],
         key := (create_key name pubkey check now
            { s0 with calls := s0.calls ++ [NetCall.get keysUrl] }).1 },
       (create_key name pubkey check now
          { s0 with calls := s0.calls ++ [NetCall.get keysUrl] }).2) := by
  simp [ensure_key_present, listAllKeys, hm]

/-- `ensure_key_present` when a match exists and the replace branch
fires: the full match set is deleted, then a key is created. -/
theorem ensure_present_replace (name pubkey : String) (force check : Bool)
    (now : UTCTime) (s0 : SessionState) (K : RemoteKey) (tl : List RemoteKey)
    (hm : s0.remote.keys.filter (fun k => decide (k.title = name)) = K :: tl)
    (hfire : (force && decide (¬ K.key = pubkey)) = true) :
    ensure_key_present name pubkey force check now s0 =
      ({ changed := true, deleted_keys := K :: tl, matching_keys := [],
         key := (create_key name pubkey check now (delete_keys (K :: tl) check
            { s0 with calls := s0.calls ++ [NetCall.get keysUrl] })).1 },
       (create_key name pubkey check now (delete_keys (K :: tl) check
          { s0 with calls := s0.calls ++ [NetCall.get keysUrl] })).2) := by
  have hf : force = true := by
    cases force
    · simp at hfire
    · rfl
  have hd : ¬ K.key = pubkey := by
    rw [hf] at hfire
    simpa using hfire
  simp [ensure_key_present, listAllKeys, hm, hf, hd]

/-- `ensure_key_present` when a match exists and the replace branch does
not fire: nothing is mutated and the first match is reported. -/
theorem ensure_present_keep (name pubkey : String) (force check : Bool)
    (now : UTCTime) (s0 : SessionState) (K : RemoteKey) (tl : List RemoteKey)
    (hm : s0.remote.keys.filter (fun k => decide (k.title = name)) = K :: tl)
    (hfire : (force && decide (¬ K.key = pubkey)) = false) :
    ensure_key_present name pubkey force check now s0 =
      ({ changed := false, deleted_keys := [], matching_keys := K :: tl, key := K },
       { s0 with calls := s0.calls ++ [NetCall.get keysUrl] }) := by
  have hcond : ¬ (force = true ∧ ¬ K.key = pubkey) := by
    rintro ⟨hf, hd⟩
    rw [hf] at hfire
    simp [hd] at hfire
  simp [ensure_key_present, listAllKeys, hm, hcond]

/-- The changed flag of the present path is set exactly when keys were
deleted or the create path ran (no match survived to the final step). -/
theorem present_changed_iff (name pubkey : String) (force check : Bool)
    (now : UTCTime) (s0 : SessionState) :
    ((ensure_key_present name pubkey force check now s0).1.changed = true
      ↔ ((ensure_key_present name pubkey force check now s0).1.deleted_keys ≠ []
          ∨ (ensure_key_present name pubkey force check now s0).1.matching_keys = [])) := by
  rcases hm : s0.remote.keys.filter (fun k => decide (k.title = name)) with _ | ⟨K, tl⟩
  · rw [ensure_present_no_match name pubkey force check now s0 hm]
    simp
  · cases hfire : (force && decide (¬ K.key = pubkey)) with
    | false =>
      rw [ensure_present_keep name pubkey force check now s0 K tl hm hfire]
      simp
    | true =>
      rw [ensure_present_replace name pubkey force check now s0 K tl hm hfire]
      simp

/-- In check mode the present path leaves the session untouched apart
from the listing GET: no POST or DELETE is issued and the store keeps
its value. -/
theorem ensure_present_check_sess (name pubkey : String) (force : Bool)
    (now : UTCTime) (s0 : SessionState) :
    (ensure_key_present name pubkey force true now s0).2
      = { s0 with calls := s0.calls ++ [NetCall.get keysUrl] } := by
  rcases hm : s0.remote.keys.filter (fun k => decide (k.title = name)) with _ | ⟨K, tl⟩
  · rw [ensure_present_no_match name pubkey force true now s0 hm]
    rfl
  · cases hfire : (force && decide (¬ K.key = pubkey)) with
    | false => rw [ensure_present_keep name pubkey force true now s0 K tl hm hfire]
    | true =>
      rw [ensure_present_replace name pubkey force true now s0 K tl hm hfire]
      rfl

/-- A forced real run of the present path on a store whose first match,
if any, does not already carry the requested material: the run reports a
change, and afterwards the keys bearing the target title are exactly the
freshly created one. -/
theorem runPresent_fresh_store (name pubkey : String) (now : UTCTime) (r : Remote)
    (hdiff : ((r.keys.filter (fun k => decide (k.title = name))).head?.all
        (fun K => decide (¬ K.key = pubkey))) = true) :
    (runPresent name pubkey true false now r).1.changed = true
    ∧ (runPresent name pubkey true false now r).2.remote.keys.filter
        (fun k => decide (k.title = name)) = [mkServerKey name pubkey now r.nextId] := by
  rcases hm : r.keys.filter (fun k => decide (k.title = name)) with _ | ⟨K, tl⟩
  · unfold runPresent
    have hm0 : ({ remote := r, calls := [] } : SessionState).remote.keys.filter
        (fun k => decide (k.title = name)) = [] := hm
    rw [ensure_present_no_match name pubkey true false now _ hm0]
    refine ⟨rfl, ?_⟩
    simp [create_key, mkServerKey, List.filter_append, hm]
  · have hK : ¬ K.key = pubkey := by
      rw [hm] at hdiff
      simpa using hdiff
    unfold runPresent
    have hm0 : ({ remote := r, calls := [] } : SessionState).remote.keys.filter
        (fun k => decide (k.title = name)) = K :: tl := hm
    rw [ensure_present_replace name pubkey true false now _ K tl hm0 (by simp [hK])]
    refine ⟨rfl, ?_⟩
    rw [delete_keys_false_eq]
    simp only [create_key, Bool.false_eq_true, if_false, List.filter_append]
    rw [filter_title_sub name r.keys (K :: tl) hm]
    simp [mkServerKey]

/-- Unfolding of `splitOnChar` on a cons cell. -/
theorem splitOnChar_cons (sep c : Char) (rest : List Char) :
    splitOnChar sep (c :: rest) =
      match splitOnChar sep rest with
      | [] => [[]]
      | t :: ts => if c = sep then [] :: t :: ts else (c :: t) :: ts := rfl

/-- Splitting always yields at least one token. -/
theorem splitOnChar_ne_nil (sep : Char) (cs : List Char) :
    splitOnChar sep cs ≠ [] := by
  cases cs with
  | nil => simp [splitOnChar]
  | cons c rest =>
    rw [splitOnChar_cons]
    rcases h : splitOnChar sep rest with _ | ⟨t, ts⟩
    · simp
    · show (if c = sep then [] :: t :: ts else (c :: t) :: ts) ≠ []
      by_cases hc : c = sep <;> simp [hc]

/-- Rejoining the split of a character list with the separator restores
the original list: the split loses no characters. -/
theorem joinChar_splitOnChar (sep : Char) (cs : List Char) :
    joinChar sep (splitOnChar sep cs) = cs := by
  induction cs with
  | nil => rfl
  | cons c rest ih =>
    rcases h : splitOnChar sep rest with _ | ⟨t, ts⟩
    · exact absurd h (splitOnChar_ne_nil sep rest)
    · rw [h] at ih
      rw [splitOnChar_cons, h]
      show joinChar sep (if c = sep then [] :: t :: ts else (c :: t) :: ts) = c :: rest
      by_cases hc : c = sep
      · rw [if_pos hc]
        show ([] : List Char) ++ sep :: joinChar sep (t :: ts) = c :: rest
        rw [ih, hc]
        rfl
      · rw [if_neg hc]
        cases ts with
        | nil =>
          show c :: t = c :: rest
          have ht : t = rest := ih
          rw [ht]
        | cons u us =>
          show (c :: t) ++ sep :: joinChar sep (u :: us) = c :: rest
          rw [List.cons_append,
            show t ++ sep :: joinChar sep (u :: us) = rest from ih]

/-- No token produced by the split contains the separator. -/
theorem splitOnChar_not_mem (sep : Char) (cs : List Char) :
    ∀ t ∈ splitOnChar sep cs, ¬ sep ∈ t := by
  induction cs with
  | nil =>
    intro t ht
    simp only [splitOnChar, List.mem_singleton] at ht
    subst ht
    simp
  | cons c rest ih =>
    intro t ht
    rw [splitOnChar_cons] at ht
    rcases h : splitOnChar sep rest with _ | ⟨u, us⟩
    · exact absurd h (splitOnChar_ne_nil sep rest)
    · rw [h] at ht ih
      replace ht : t ∈ (if c = sep then [] :: u :: us else (c :: u) :: us) := ht
      by_cases hc : c = sep
      · rw [if_pos hc] at ht
        rcases List.mem_cons.mp ht with h1 | h2
        · subst h1; simp
        · exact ih t h2
      · rw [if_neg hc] at ht
        rcases List.mem_cons.mp ht with h1 | h2
        · subst h1
          intro hmem
          rcases List.mem_cons.mp hmem with h3 | h4
          · exact hc h3.symm
          · exact ih u (List.mem_cons_self u us) h4
        · exact ih t (List.mem_cons_of_mem u h2)

/-- Joining the string tokens of a character-level token list agrees
with the character-level join. -/
theorem joinSpace_map_mk (ls : List (List Char)) :
    joinSpace (ls.map (fun cs => String.mk cs)) = String.mk (joinChar ' ' ls) := by
  induction ls with
  | nil => rfl
  | cons t ts ih =>
    cases ts with
    | nil => rfl
    | cons u us =>
      simp only [List.map_cons, joinSpace, joinChar] at ih ⊢
      rw [ih]
      show String.mk ((t ++ [' ']) ++ joinChar ' ' (u :: us)) = _
      rw [List.append_assoc]
      rfl

/-- Claim C1 (code_bug): on a listing split across two pages linked via a
rel next entry in the link metadata, the lister is supposed to follow the
link and yield the keys of both pages in order; instead the embedded
`GitHubResponse.links` raises an `AttributeError` (its body reads
`re.info` - the regular-expression module - where `self.info` was meant),
so the listing of any multi-page collection crashes after the first page
even though the second page is served. -/
theorem c1_pagination_crashes :
    get_all_keys c1Server 10 keysUrl = Except.error ListErr.attributeError
    ∧ c1Server c1Page2Url = some { keys := [c1Key2], info := [] } :=
  ⟨rfl, rfl⟩

/-- Claim C2 (confirmed): with an existing first match K of material A and
a request for material B distinct from A, force means delete all matches
(one DELETE each), create a new key whose material is B, report
changed and the match set as deleted; without force nothing is deleted,
changed is false and the original first match is returned; and in
general the changed flag is set exactly when keys were deleted or the
create path ran. -/
theorem c2_force_semantics (r : Remote) (name A B : String) (K : RemoteKey)
    (tl : List RemoteKey) (now : UTCTime)
    (hm : r.keys.filter (fun k => decide (k.title = name)) = K :: tl)
    (hA : K.key = A) (hAB : ¬ A = B) :
    ((runPresent name B true false now r).1.changed = true
      ∧ (runPresent name B true false now r).1.deleted_keys = K :: tl
      ∧ (runPresent name B true false now r).1.key.key = B
      ∧ (runPresent name B true false now r).2.calls
          = NetCall.get keysUrl
              :: ((K :: tl).map (fun k => NetCall.delete (deleteUrl k.id) k.id)
                  ++ [NetCall.post keysUrl name B])
      ∧ (runPresent name B true false now r).2.remote.keys.filter
          (fun k => decide (k.title = name))
          = [(runPresent name B true false now r).1.key])
    ∧ ((runPresent name B false false now r).1.changed = false
      ∧ (runPresent name B false false now r).1.deleted_keys = []
      ∧ (runPresent name B false false now r).1.key = K
      ∧ (runPresent name B false false now r).2.remote = r
      ∧ (runPresent name B false false now r).2.calls = [NetCall.get keysUrl])
    ∧ (∀ (nm pk : String) (force : Bool) (r2 : Remote),
        (runPresent nm pk force false now r2).1.changed = true
          ↔ ((runPresent nm pk force false now r2).1.deleted_keys ≠ []
              ∨ (runPresent nm pk force false now r2).1.matching_keys = [])) := by
  have hK : ¬ K.key = B := by rw [hA]; exact hAB
  have hm0 : ({ remote := r, calls := [] } : SessionState).remote.keys.filter
      (fun k => decide (k.title = name)) = K :: tl := hm
  have hrep := ensure_present_replace name B true false now
    { remote := r, calls := [] } K tl hm0 (by simp [hK])
  have hkeep := ensure_present_keep name B false false now
    { remote := r, calls := [] } K tl hm0 (by simp)
  refine ⟨⟨?_, ?_, ?_, ?_, ?_⟩, ⟨?_, ?_, ?_, ?_, ?_⟩, ?_⟩
  · unfold runPresent; rw [hrep]
  · unfold runPresent; rw [hrep]
  · unfold runPresent; rw [hrep]
    simp [create_key, mkServerKey]
  · unfold runPresent; rw [hrep, delete_keys_false_eq]
    simp [create_key]
  · unfold runPresent; rw [hrep, delete_keys_false_eq]
    simp only [create_key, Bool.false_eq_true, if_false, List.filter_append]
    rw [filter_title_sub name r.keys (K :: tl) hm]
    simp [mkServerKey]
  · unfold runPresent; rw [hkeep]
  · unfold runPresent; rw [hkeep]
  · unfold runPresent; rw [hkeep]
  · unfold runPresent; rw [hkeep]
  · unfold runPresent; rw [hkeep]; rfl
  · intro nm pk force r2
    exact present_changed_iff nm pk force false now { remote := r2, calls := [] }

/-- Witness for C2 at a concrete store: one existing key of differing
material, force replace reports a change. -/
theorem c2_witness :
    (runPresent "deploy-key" "ssh-rsa NEW" true false t0 demoRemote).1.changed = true :=
  (c2_force_semantics demoRemote "deploy-key" "ssh-rsa OLD" "ssh-rsa NEW"
    { id := 4, title := "deploy-key", key := "ssh-rsa OLD", url := "u4",
      created_at := "2016-01-01T00:00:00Z", read_only := false, verified := false }
    [] t0 (by decide) rfl (by decide)).1.1

/-- Claim C3 counterexample: when the store already holds the requested
key, the first of two identical runs reports changed = false, not
changed = true as the claim requires of every (name, pubkey). -/
theorem c3_counterexample :
    (runPresent "deploy-key" "ssh-rsa AAA" true false t0 c3Remote).1.changed = false
    ∧ (runPresent "deploy-key" "ssh-rsa AAA" true false t0
        (runPresent "deploy-key" "ssh-rsa AAA" true false t0 c3Remote).2.remote).1.changed
        = false := by
  constructor <;> decide

/-- Claim C3 (corrected): for every (name, pubkey) and store, with
force true in a real (non-check) run, if the first pre-existing key
bearing the title - when there is one - does not already carry the
requested material, then the first run reports changed, the second
identical run reports no change, and after each run exactly one key with
that title remains, whose material is the pubkey. -/
theorem c3_idempotence_amended (name pubkey : String) (r : Remote)
    (now now2 : UTCTime)
    (hdiff : ((r.keys.filter (fun k => decide (k.title = name))).head?.all
        (fun K => decide (¬ K.key = pubkey))) = true) :
    (runPresent name pubkey true false now r).1.changed = true
    ∧ (runPresent name pubkey true false now2
        (runPresent name pubkey true false now r).2.remote).1.changed = false
    ∧ ((runPresent name pubkey true false now r).2.remote.keys.filter
        (fun k => decide (k.title = name))).map RemoteKey.key = [pubkey]
    ∧ ((runPresent name pubkey true false now2
        (runPresent name pubkey true false now r).2.remote).2.remote.keys.filter
        (fun k => decide (k.title = name))).map RemoteKey.key = [pubkey] := by
  obtain ⟨h1, hstore⟩ := runPresent_fresh_store name pubkey now r hdiff
  have hrun2 : runPresent name pubkey true false now2
      (runPresent name pubkey true false now r).2.remote
      = ({ changed := false, deleted_keys := [],
           matching_keys := [mkServerKey name pubkey now r.nextId],
           key := mkServerKey name pubkey now r.nextId },
         { remote := (runPresent name pubkey true false now r).2.remote,
           calls := [NetCall.get keysUrl] }) := by
    have hrw : runPresent name pubkey true false now2
        (runPresent name pubkey true false now r).2.remote
        = ensure_key_present name pubkey true false now2
            { remote := (runPresent name pubkey true false now r).2.remote,
              calls := [] } := rfl
    rw [hrw, ensure_present_keep name pubkey true false now2
      { remote := (runPresent name pubkey true false now r).2.remote, calls := [] }
      (mkServerKey name pubkey now r.nextId) [] hstore (by simp [mkServerKey])]
    rfl
  refine ⟨h1, ?_, ?_, ?_⟩
  · rw [hrun2]
  · rw [hstore]; simp [mkServerKey]
  · rw [hrun2]
    show ((runPresent name pubkey true false now r).2.remote.keys.filter
        (fun k => decide (k.title = name))).map RemoteKey.key = [pubkey]
    rw [hstore]; simp [mkServerKey]

/-- Witness for the amended C3 on the empty store. -/
theorem c3_amended_witness :
    (runPresent "deploy-key" "ssh-rsa AAA" true false t0 emptyRemote).1.changed = true :=
  (c3_idempotence_amended "deploy-key" "ssh-rsa AAA" emptyRemote t0 t0 (by decide)).1

/-- Claim C4 (confirmed): under check mode no POST or DELETE is issued:
the create path fabricates the synthetic record (id 0, requested title
and key, placeholder URL, current UTC time under the strftime format,
read_only and verified false) without touching the session, delete_keys
is a no-op, both reconcilers leave the remote store intact and log only
the listing GET, and the absent path still reports the would-be-deleted
match set. -/
theorem c4_dry_run_non_mutation (name pubkey : String) (force : Bool)
    (now : UTCTime) (r : Remote) (l : List RemoteKey) (s : SessionState) :
    create_key name pubkey true now s
      = ({ id := 0, title := name, key := pubkey,
           url := "http://example.com/CHECK_MODE_GITHUB_KEY",
           created_at := strftimeGH now, read_only := false, verified := false }, s)
    ∧ delete_keys l true s = s
    ∧ (runPresent name pubkey force true now r).2
        = { remote := r, calls := [NetCall.get keysUrl] }
    ∧ (runAbsent name true r).2 = { remote := r, calls := [NetCall.get keysUrl] }
    ∧ (runAbsent name true r).1.deleted_keys
        = r.keys.filter (fun k => decide (k.title = name)) :=
  ⟨rfl, rfl,
   ensure_present_check_sess name pubkey force now { remote := r, calls := [] },
   rfl, rfl⟩

/-- Claim C5 (confirmed): validation precedes any network call: a
single-token pubkey fails with the format error and an empty call log
whatever the requested state, a missing pubkey with state present fails
with the missing-pubkey error and an empty call log, and a missing
pubkey with state absent proceeds past validation into the absent
reconciler. -/
theorem c5_validation_before_network (name : String) (st : KeyState)
    (force check : Bool) (now : UTCTime) (r : Remote) :
    github_key_main name (some "ssh-rsa") st force check now r
      = (Except.error invalidFormatMsg, { remote := r, calls := [] })
    ∧ github_key_main name none KeyState.present force check now r
      = (Except.error missingPubkeyMsg, { remote := r, calls := [] })
    ∧ github_key_main name none KeyState.absent force check now r
      = (Except.ok (Sum.inr (runAbsent name check r).1), (runAbsent name check r).2) :=
  ⟨rfl, rfl, rfl⟩

/-- Claim C6 (confirmed): the absent path reports the full match set as
deleted and a change exactly when that set is non-empty; in check mode
only the listing GET is issued; in a real run one DELETE per matching
key is issued, by identifier, and afterwards no key with the title
remains in the store. -/
theorem c6_absent_reconciliation (name : String) (r : Remote) (check : Bool) :
    (runAbsent name check r).1.changed
        = !(r.keys.filter (fun k => decide (k.title = name))).isEmpty
    ∧ (runAbsent name check r).1.deleted_keys
        = r.keys.filter (fun k => decide (k.title = name))
    ∧ (runAbsent name true r).2 = { remote := r, calls := [NetCall.get keysUrl] }
    ∧ (runAbsent name false r).2.calls
        = NetCall.get keysUrl
            :: (r.keys.filter (fun k => decide (k.title = name))).map
                (fun k => NetCall.delete (deleteUrl k.id) k.id)
    ∧ (runAbsent name false r).2.remote.keys.filter
        (fun k => decide (k.title = name)) = [] := by
  have habs : (runAbsent name false r).2
      = delete_keys (r.keys.filter (fun k => decide (k.title = name))) false
          { remote := r, calls := [NetCall.get keysUrl] } := rfl
  refine ⟨rfl, rfl, rfl, ?_, ?_⟩
  · rw [habs, delete_keys_false_eq]
    rfl
  · rw [habs, delete_keys_false_eq]
    exact filter_title_sub name r.keys (r.keys.filter (fun k => decide (k.title = name))) rfl

/-- Claim C7 counterexample: the code splits the raw key on the space
character only, not on general whitespace: a tab-separated two-token key
is rejected by the code although the whitespace reading of the claim
accepts it and normalizes it to the two tokens. -/
theorem c7_counterexample :
    normalizePubkey "ssh-rsa\tAAAB" = Except.error invalidFormatMsg
    ∧ normalizePubkeySpec "ssh-rsa\tAAAB" = Except.ok "ssh-rsa AAAB" :=
  ⟨rfl, rfl⟩

/-- Claim C7 (corrected): normalization splits the raw public key string
on the space character (not on general whitespace), fails with the
format error when fewer than two parts result, and otherwise keeps
exactly the first two parts joined by one space; the parts are the
maximal space-free segments of the raw string, which they reconstitute. -/
theorem c7_normalization_amended (p : String) :
    ((pubkeyParts p).length < 2 → normalizePubkey p = Except.error invalidFormatMsg)
    ∧ (∀ (t1 t2 : String) (rest : List String),
        pubkeyParts p = t1 :: t2 :: rest →
        normalizePubkey p = Except.ok (t1 ++ " " ++ t2))
    ∧ joinSpace (pubkeyParts p) = p
    ∧ (∀ t ∈ pubkeyParts p, ¬ ' ' ∈ t.toList) := by
  refine ⟨?_, ?_, ?_, ?_⟩
  · intro h
    simp [normalizePubkey, h]
  · intro t1 t2 rest h
    have hlen : ¬ (pubkeyParts p).length < 2 := by
      rw [h]; simp only [List.length_cons]; omega
    simp only [normalizePubkey, if_neg hlen, h]
    rfl
  · show joinSpace ((splitOnChar ' ' p.toList).map (fun cs => String.mk cs)) = p
    rw [joinSpace_map_mk, joinChar_splitOnChar]
    cases p
    rfl
  · intro t ht
    obtain ⟨cs, hcs, rfl⟩ := List.mem_map.mp ht
    intro hmem
    exact splitOnChar_not_mem ' ' p.toList cs hcs hmem

/-- Witness for the amended C7 on a three-token key: the comment token is
discarded and the first two tokens are kept. -/
theorem c7_amended_witness :
    normalizePubkey "ssh-rsa KEYDATA comment"
      = Except.ok ("ssh-rsa" ++ " " ++ "KEYDATA") :=
  (c7_normalization_amended "ssh-rsa KEYDATA comment").2.1
    "ssh-rsa" "KEYDATA" ["comment"] (by decide)

/-- Claim C8 counterexample: with state absent and a supplied malformed
(single-token) pubkey, the invocation fails validation instead of
succeeding, refuting "succeeds regardless of what form it takes". -/
theorem c8_counterexample :
    github_key_main "deploy-key" (some "ssh-rsa") KeyState.absent true false t0 emptyRemote
      = (Except.error invalidFormatMsg, { remote := emptyRemote, calls := [] }) :=
  rfl

/-- Claim C8 (corrected): with state absent the pubkey is not required -
the invocation succeeds with no pubkey or an empty one, and with any
well-formed pubkey (two or more space-separated parts); but a supplied
malformed pubkey still fails validation even when state is absent. -/
theorem c8_absent_pubkey_amended (name : String) (force check : Bool)
    (now : UTCTime) (r : Remote) :
    (github_key_main name none KeyState.absent force check now r).1
      = Except.ok (Sum.inr (runAbsent name check r).1)
    ∧ (github_key_main name (some "") KeyState.absent force check now r).1
      = Except.ok (Sum.inr (runAbsent name check r).1)
    ∧ (∀ (p t1 t2 : String) (rest : List String),
        pubkeyParts p = t1 :: t2 :: rest →
        (github_key_main name (some p) KeyState.absent force check now r).1
          = Except.ok (Sum.inr (runAbsent name check r).1)) := by
  refine ⟨rfl, rfl, ?_⟩
  intro p t1 t2 rest hp
  have hp0 : ¬ p = "" := by
    intro h0
    rw [h0] at hp
    have hval : pubkeyParts "" = [""] := rfl
    rw [hval] at hp
    simp at hp
  have hlen : ¬ (pubkeyParts p).length < 2 := by
    rw [hp]; simp only [List.length_cons]; omega
  simp [github_key_main, hp0, normalizePubkey, hlen, mainDispatch, runAbsent]

/-- Witness for the amended C8: a well-formed two-token pubkey with state
absent passes validation and reaches the absent reconciler. -/
theorem c8_amended_witness :
    (github_key_main "deploy-key" (some "a b") KeyState.absent true false t0 emptyRemote).1
      = Except.ok (Sum.inr (runAbsent "deploy-key" false emptyRemote).1) :=
  (c8_absent_pubkey_amended "deploy-key" true false t0 emptyRemote).2.2
    "a b" "a" "b" [] (by decide)

/-- Claim C9 counterexample: with two pre-existing keys sharing the
target title whose first match already carries the requested material,
the present path returns both of them in matching_keys - a sequence of
length two, refuting "length at most one for all pre-existing
collections". -/
theorem c9_counterexample :
    (runPresent "dup" "ssh-rsa AAA" true false t0 c9Remote).1.matching_keys.length = 2 := by
  decide

/-- Claim C9 (corrected): the matching_keys field of the present path is
either empty (when the force-replace deletion fired or no key bore the
title) or the full pre-existing match set; in particular its length is
at most one whenever at most one pre-existing key bears the target
title. -/
theorem c9_matching_keys_amended (name pubkey : String) (force check : Bool)
    (now : UTCTime) (r : Remote)
    (huniq : (r.keys.filter (fun k => decide (k.title = name))).length ≤ 1) :
    (runPresent name pubkey force check now r).1.matching_keys.length ≤ 1
    ∧ ((runPresent name pubkey force check now r).1.matching_keys = []
        ∨ (runPresent name pubkey force check now r).1.matching_keys
            = r.keys.filter (fun k => decide (k.title = name))) := by
  rcases hm : r.keys.filter (fun k => decide (k.title = name)) with _ | ⟨K, tl⟩
  · unfold runPresent
    rw [ensure_present_no_match name pubkey force check now _ hm]
    simp
  · unfold runPresent
    cases hfire : (force && decide (¬ K.key = pubkey)) with
    | false =>
      rw [ensure_present_keep name pubkey force check now _ K tl hm hfire]
      constructor
      · show (K :: tl).length ≤ 1
        rw [hm] at huniq
        exact huniq
      · exact Or.inr hm.symm
    | true =>
      rw [ensure_present_replace name pubkey force check now _ K tl hm hfire]
      simp

/-- Witness for the amended C9 on a store with a single key bearing the
title. -/
theorem c9_amended_witness :
    (runPresent "deploy-key" "ssh-rsa NEW" true false t0 demoRemote).1.matching_keys.length ≤ 1 :=
  (c9_matching_keys_amended "deploy-key" "ssh-rsa NEW" true false t0 demoRemote (by decide)).1

/-- Claim C10 (confirmed): an empty-string pubkey with state present is
treated like an absent pubkey: validation fails with the missing-pubkey
message - not the malformed-format message - and no network call is
issued. -/
theorem c10_empty_pubkey_missing_error (name : String) (force check : Bool)
    (now : UTCTime) (r : Remote) :
    github_key_main name (some "") KeyState.present force check now r
      = (Except.error missingPubkeyMsg, { remote := r, calls := [] })
    ∧ missingPubkeyMsg = "\"pubkey\" is required when state=present"
    ∧ invalidFormatMsg = "\"pubkey\" parameter has an invalid format" :=
  ⟨rfl, rfl, rfl⟩

end GithubKey
